import Mathlib

/-!
Verification of the rule-evaluation engine and the data-ingestion layer of
kconfig-hardened-check (`kconfig_hardened_check/__init__.py`).

The Python code is shallowly embedded below:

* `optCheckResult` embeds `OptCheck.check` (the common decision procedure of
  `KconfigCheck` and `CmdlineCheck`); an absent actual state (`self.state is
  None`) is `none`, a present value is `some v`.
* `versionCheckResult` embeds `VersionCheck.check`; version numbers come from
  `int()` of digit strings, hence `Nat`.
* `Check` / `CheckList` is the tree of checks; `runCheck` / `runOr` /
  `runOrGo` / `runAnd` / `runAndTail` embed `OR.check` and `AND.check`.
  Fatal assertion failures and attribute errors are modelled as
  `Except.error`.  `AND.check` iterates `reversed(list(enumerate(opts)))`
  stopping at the first failing option; `runAndTail` computes the same
  result by a right-to-left structural pass: the deepest recursive call is
  the last list element, which the Python loop visits first.
* `parseKconfigLine` / `parseKconfigLines` embed `parse_kconfig_file`;
  the regexes `CONFIG_[a-zA-Z0-9_]*=[a-zA-Z0-9_"]*` and
  `# CONFIG_[a-zA-Z0-9_]* is not set` are prefix matches (`re.match`), which
  reduce to the explicit character tests in `optIsOnMatch` / `optIsOffMatch`
  because `=` and space are not name characters.
* `normalizeCmdlineOptions`, `pyWords`, `cmdlineStep`, `parseCmdlineFile`
  embed `normalize_cmdline_options` and `parse_cmdline_file` (`str.split()`
  with no argument is whitespace splitting that drops empty tokens;
  `f.readline()` based one-line detection becomes a test on the characters
  after the first newline).
* `detectArch` embeds `detect_arch`.
* `populateSimpleOptWithData`, `populateOptComplex`,
  `populateChildrenWithData`, `populateOptWithData`, `populateWithData`
  embed `populate_simple_opt_with_data`, `populate_opt_with_data` and
  `populate_with_data`.
-/

/-- The two string-valued simple-check kinds (`KconfigCheck.type = 'kconfig'`,
`CmdlineCheck.type = 'cmdline'`).  `VersionCheck` is a separate constructor of
`Check` because its actual state is a tuple, not a string. -/
inductive SKind where
  | kconfig
  | cmdline
deriving DecidableEq, Repr

deriving instance DecidableEq for Except

/-- Python `value.startswith(pat)` restricted to what the tool needs:
`listLeads pat s` decides whether `s` begins with `pat`. -/
def listLeads : List Char → List Char → Bool
  | [], _ => true
  | _ :: _, [] => false
  | p :: ps, c :: cs => if p = c then listLeads ps cs else false

/-- `s.startswith(pat)` from the Python source. -/
def strStartsWith (s pat : String) : Bool := listLeads pat.data s.data

/-- A result string is PASS-class iff it starts with `OK` — this is the test
`result.startswith('OK')` used throughout the source. -/
def isPass (r : String) : Bool := strStartsWith r "OK"

/-- Python `line.strip()`: drop leading and trailing whitespace. -/
def pyStrip (cs : List Char) : List Char :=
  ((cs.dropWhile Char.isWhitespace).reverse.dropWhile Char.isWhitespace).reverse

/-- Python `'{}'.format(x)` applied to an `expected` attribute, which is either
a string or `None`. -/
def fmtExpected : Option String → String
  | none => "None"
  | some s => s

/-- `OptCheck.check` (src lines 96-114): the decision procedure of a simple
kconfig/cmdline check, as a function of the expected value and the actual
state.  The Python method stores the returned string in `self.result`. -/
def optCheckResult (expected state : Option String) : String :=
  match expected with
  | none =>
    -- option presence check
    match state with
    | none => "FAIL: not present"
    | some _ => "OK: is present"
  | some e =>
    -- option value check
    if state = some e then "OK"
    else
      match state with
      | none => if e = "is not set" then "OK: not found" else "FAIL: not found"
      | some s => "FAIL: \"" ++ s ++ "\""

/-- `VersionCheck.check` (src lines 158-168) as a function of
`self.ver_expected` and `self.ver`. -/
def versionCheckResult (verExpected ver : Nat × Nat) : String :=
  if verExpected.fst < ver.fst then
    "OK: version >= " ++ toString verExpected.fst ++ "." ++ toString verExpected.snd
  else if ver.fst < verExpected.fst then
    "FAIL: version < " ++ toString verExpected.fst ++ "." ++ toString verExpected.snd
  else if verExpected.snd ≤ ver.snd then
    "OK: version >= " ++ toString verExpected.fst ++ "." ++ toString verExpected.snd
  else
    "FAIL: version < " ++ toString verExpected.fst ++ "." ++ toString verExpected.snd

mutual
/-- The tree of checks.  `simple` covers `KconfigCheck`/`CmdlineCheck`
(the `CONFIG_` name prefixing of `KconfigCheck.__init__` is already applied to
`name`); `version` covers `VersionCheck` (`ver = none` models the unpopulated
`self.ver = ()`); `orC`/`andC` cover the `OR`/`AND` `ComplexOptCheck`s. -/
inductive Check where
  | simple (kind : SKind) (name : String) (expected : Option String) (state : Option String)
  | version (verExpected : Nat × Nat) (ver : Option (Nat × Nat))
  | orC (opts : CheckList)
  | andC (opts : CheckList)
/-- The ordered children of a compound check (`self.opts`). -/
inductive CheckList where
  | nil
  | cons (head : Check) (tail : CheckList)
end

deriving instance DecidableEq for Check

/-- Bridge from ordinary lists to `CheckList`. -/
def ofList : List Check → CheckList
  | [] => .nil
  | c :: cs => .cons c (ofList cs)

mutual
/-- The `name` property: direct for simple checks, delegated to `opts[0]` for
compounds; `VersionCheck` has no `name` attribute, which is an
`AttributeError` in Python. -/
def nameOf : Check → Except String String
  | .simple _ n _ _ => .ok n
  | .version _ _ => .error "AttributeError: VersionCheck has no attribute name"
  | .orC cs => nameOfHead cs
  | .andC cs => nameOfHead cs
def nameOfHead : CheckList → Except String String
  | .nil => .error "IndexError: empty compound check"
  | .cons c _ => nameOf c
end

mutual
/-- The `expected` property, delegated exactly like `name`. -/
def expectedOf : Check → Except String (Option String)
  | .simple _ _ e _ => .ok e
  | .version _ _ => .error "AttributeError: VersionCheck has no attribute expected"
  | .orC cs => expectedOfHead cs
  | .andC cs => expectedOfHead cs
def expectedOfHead : CheckList → Except String (Option String)
  | .nil => .error "IndexError: empty compound check"
  | .cons c _ => expectedOf c
end

/-- The `i != 0` re-annotation branch of `OR.check` (src lines 231-242),
applied to a passing non-first child `c` whose own result is `r`.  The final
branch is the `assert(opt.result.startswith('OK: version'))`; a failing
assertion is a fatal `AssertionError`, modelled as `Except.error`. -/
def orAnnotate (c : Check) (r : String) : Except String String :=
  if r = "OK" then do
    let n ← nameOf c
    let e ← expectedOf c
    pure ("OK: " ++ n ++ " \"" ++ fmtExpected e ++ "\"")
  else if r = "OK: not found" then do
    let n ← nameOf c
    pure ("OK: " ++ n ++ " not found")
  else if r = "OK: is present" then do
    let n ← nameOf c
    pure ("OK: " ++ n ++ " is present")
  else if strStartsWith r "OK: version" then
    pure r
  else
    .error ("AssertionError: unexpected OK description " ++ r)

/-- The failure-explanation branch of `AND.check` (src lines 259-271), applied
to a failing child `c` (of index `> 0`) whose own result is `r`.  The final
branch keeps `r` but asserts it starts with `FAIL: version`. -/
def andFailResult (c : Check) (r : String) : Except String String :=
  if strStartsWith r "FAIL: \"" || r = "FAIL: not found" then do
    let n ← nameOf c
    let e ← expectedOf c
    pure ("FAIL: " ++ n ++ " not \"" ++ fmtExpected e ++ "\"")
  else if r = "FAIL: not present" then do
    let n ← nameOf c
    pure ("FAIL: " ++ n ++ " not present")
  else if strStartsWith r "FAIL: version" then
    pure r
  else
    .error ("AssertionError: unexpected FAIL description " ++ r)

mutual
/-- `check()` of any check.  Simple checks always produce a result string;
an unpopulated `VersionCheck` would raise (`self.ver[0]` on an empty tuple);
compound checks run `OR.check`/`AND.check`. -/
def runCheck : Check → Except String String
  | .simple _ _ e st => .ok (optCheckResult e st)
  | .version ve v? =>
    match v? with
    | some v => .ok (versionCheckResult ve v)
    | none => .error "IndexError: VersionCheck not populated"
  | .orC cs => runOr cs
  | .andC cs => runAnd cs

/-- `OR.check` (src lines 226-244): children in order, stop at the first
PASS-class child; index 0 keeps its result verbatim, a later winner is
re-annotated by `orAnnotate`; if nobody passes the result is `opts[0].result`.
An empty `opts` would raise on the final `self.opts[0]`. -/
def runOr : CheckList → Except String String
  | .nil => .error "IndexError: empty OR check"
  | .cons c0 rest =>
    match runCheck c0 with
    | .error m => .error m
    | .ok r0 => if strStartsWith r0 "OK" then .ok r0 else runOrGo r0 rest

/-- The rest of the `OR.check` loop, carrying `opts[0].result` for the
nobody-passed fallthrough. -/
def runOrGo (r0 : String) : CheckList → Except String String
  | .nil => .ok r0
  | .cons c rest =>
    match runCheck c with
    | .error m => .error m
    | .ok r => if strStartsWith r "OK" then orAnnotate c r else runOrGo r0 rest

/-- `AND.check` (src lines 253-272): children are visited in reverse order;
the first failing child of index `> 0` ends the loop via `andFailResult`,
and only when all of them pass is `opts[0]` checked, its result adopted. -/
def runAnd : CheckList → Except String String
  | .nil => .error "IndexError: empty AND check"
  | .cons c0 rest =>
    match runAndTail rest with
    | some r => r
    | none => runCheck c0

/-- The reverse-order visit of the children of index `> 0`:
`runAndTail cs = some r` means the loop stopped with result `r` before
reaching index 0, `none` means every such child passed.  The innermost
recursive call is the last list element — exactly the child the Python
`reversed(...)` loop visits first. -/
def runAndTail : CheckList → Option (Except String String)
  | .nil => none
  | .cons c rest =>
    match runAndTail rest with
    | some r => some r
    | none =>
      match runCheck c with
      | .error m => some (.error m)
      | .ok r => if strStartsWith r "OK" then none else some (andFailResult c r)
end

/-! Claims and lemmas: Config text parser (`parse_kconfig_file`, src lines 846-869) -/

/-- The character class `[a-zA-Z0-9_]` of both kconfig regexes. -/
def isNameChar (c : Char) : Bool := c.isAlpha || c.isDigit || c = '_'

/-- `re.match` of `CONFIG_[a-zA-Z0-9_]*=[a-zA-Z0-9_"]*` on a (stripped) line.
`re.match` anchors at the start only; the value class can match the empty
string, and since `=` is not a name character the greedy name run must end
exactly at the first `=`. -/
def optIsOnMatch (cs : List Char) : Bool :=
  listLeads "CONFIG_".data cs &&
    (match (cs.drop 7).dropWhile isNameChar with
     | '=' :: _ => true
     | _ => false)

/-- `re.match` of `# CONFIG_[a-zA-Z0-9_]* is not set` on a (stripped) line;
space is not a name character, so the name run ends exactly where the literal
` is not set` must begin. -/
def optIsOffMatch (cs : List Char) : Bool :=
  listLeads "# CONFIG_".data cs &&
    listLeads " is not set".data ((cs.drop 9).dropWhile isNameChar)

/-- Lookup in the ordered option map (models both `option in parsed_options`
and `parsed_options.get(name, None)`). -/
def alookup : List (String × String) → String → Option String
  | [], _ => none
  | (k, v) :: rest, n => if k = n then some v else alookup rest n

/-- One iteration of the `parse_kconfig_file` loop on the accumulated map:
strip the line, try the enabled pattern then the disabled pattern, validate
the value, reject duplicates, and append the new entry (Python dict insertion
order).  `sys.exit` is `Except.error`. -/
def parseKconfigLine (acc : List (String × String)) (rawLine : String) :
    Except String (List (String × String)) :=
  let cs := pyStrip rawLine.data
  if optIsOnMatch cs then
    -- option, value = line.split('=', 1)
    let option := String.mk (cs.takeWhile (fun c => c ≠ '='))
    let value := String.mk ((cs.dropWhile (fun c => c ≠ '=')).drop 1)
    if value = "is not set" then
      .error ("ERROR: bad enabled kconfig option " ++ String.mk cs)
    else if (alookup acc option).isSome then
      .error ("ERROR: kconfig option " ++ String.mk cs ++ " exists multiple times")
    else
      .ok (acc ++ [(option, value)])
  else if optIsOffMatch cs then
    -- option, value = line[2:].split(' ', 1)
    let option := String.mk ((cs.drop 2).takeWhile (fun c => c ≠ ' '))
    let value := String.mk (((cs.drop 2).dropWhile (fun c => c ≠ ' ')).drop 1)
    if value ≠ "is not set" then
      .error ("ERROR: bad disabled kconfig option " ++ String.mk cs)
    else if (alookup acc option).isSome then
      .error ("ERROR: kconfig option " ++ String.mk cs ++ " exists multiple times")
    else
      .ok (acc ++ [(option, value)])
  else
    .ok acc

/-- `parse_kconfig_file` over the list of input lines. -/
def parseKconfigLines (acc : List (String × String)) :
    List String → Except String (List (String × String))
  | [] => .ok acc
  | l :: rest =>
    match parseKconfigLine acc l with
    | .error m => .error m
    | .ok acc' => parseKconfigLines acc' rest

/-- The name stored by a line that matches one of the two kconfig patterns,
`none` for ignored lines (used to state the duplicate-name property). -/
def matchedName (rawLine : String) : Option String :=
  let cs := pyStrip rawLine.data
  if optIsOnMatch cs then some (String.mk (cs.takeWhile (fun c => c ≠ '=')))
  else if optIsOffMatch cs then
    some (String.mk ((cs.drop 2).takeWhile (fun c => c ≠ ' ')))
  else none

/-! Claims and lemmas: Command-line parser (`normalize_cmdline_options`, `parse_cmdline_file`,
src lines 872-908) -/

/-- `normalize_cmdline_options` (src lines 872-889). -/
def normalizeCmdlineOptions (option value : String) : String :=
  if option = "pti" then value
  else if option = "debugfs" then value
  else if value ∈ ["1", "on", "On", "ON", "y", "Y", "yes", "Yes", "YES"] then "1"
  else if value ∈ ["0", "off", "Off", "OFF", "n", "N", "no", "No", "NO"] then "0"
  else value

/-- Helper of `pyWords`, carrying the (reversed) current token. -/
def pyWordsAux : List Char → List Char → List (List Char)
  | [], acc => if acc = [] then [] else [acc.reverse]
  | c :: cs, acc =>
    if c.isWhitespace then
      if acc = [] then pyWordsAux cs []
      else acc.reverse :: pyWordsAux cs []
    else pyWordsAux cs (c :: acc)

/-- Python `line.split()` (no separator): whitespace-separated tokens, with
runs of whitespace collapsed and no empty tokens. -/
def pyWords (cs : List Char) : List (List Char) := pyWordsAux cs []

/-- The name of a cmdline token: the part before the first `=` when the token
contains one, the whole token otherwise. -/
def tokName (tok : List Char) : String :=
  if '=' ∈ tok then String.mk (tok.takeWhile (fun c => c ≠ '=')) else String.mk tok

/-- The raw value of a cmdline token: the part after the first `=` when the
token contains one, the empty string otherwise (bare parameters). -/
def tokVal (tok : List Char) : String :=
  if '=' ∈ tok then String.mk ((tok.dropWhile (fun c => c ≠ '=')).drop 1) else ""

/-- Python `parsed_options[name] = value` on an insertion-ordered dict:
overwrite in place when the key exists, append otherwise. -/
def dictAssign (m : List (String × String)) (k v : String) : List (String × String) :=
  match m with
  | [] => [(k, v)]
  | (k', v') :: rest => if k' = k then (k', v) :: rest else (k', v') :: dictAssign rest k v

/-- One iteration of the `parse_cmdline_file` token loop. -/
def cmdlineStep (m : List (String × String)) (tok : List Char) : List (String × String) :=
  dictAssign m (tokName tok) (normalizeCmdlineOptions (tokName tok) (tokVal tok))

/-- `parse_cmdline_file` (src lines 892-908) on the whole file content.
The first `f.readline()` returns everything up to and including the first
newline; the second returns the (truthy, i.e. non-empty) text that follows,
whose presence is the fatal more-than-one-line error. -/
def parseCmdlineFile (content : String) : Except String (List (String × String)) :=
  let cs := content.data
  let firstLine := cs.takeWhile (fun c => c ≠ '\n')
  let rest := (cs.dropWhile (fun c => c ≠ '\n')).drop 1
  if rest ≠ [] then .error "ERROR: more than one line in the cmdline file"
  else .ok ((pyWords firstLine).foldl cmdlineStep [])

/-- Physical lines of a text (split on every newline), used only to state the
spec-level line-counting property of C6.  Modelled from the spec: the spec
counts the "non-empty lines" of the boot-parameter file. -/
def linesOf : List Char → List (List Char)
  | [] => []
  | c :: cs =>
    if c = '\n' then [] :: linesOf cs
    else
      match linesOf cs with
      | [] => [[c]]
      | l :: ls => (c :: l) :: ls

/-! Claims and lemmas: Architecture detection (`detect_arch`, src lines 275-289) -/

/-- `re.match` of `CONFIG_[a-zA-Z0-9_]*=y` on a raw line (prefix match,
so anything may follow the `y`). -/
def archLineMatch (cs : List Char) : Bool :=
  listLeads "CONFIG_".data cs &&
    (match (cs.drop 7).dropWhile isNameChar with
     | '=' :: 'y' :: _ => true
     | _ => false)

/-- `line[7:].split('=', 1)[0]` for a line matching `archLineMatch`. -/
def archOptionOf (cs : List Char) : String :=
  String.mk ((cs.drop 7).takeWhile (fun c => c ≠ '='))

/-- The `detect_arch` loop with its `arch` accumulator (`none` until a first
marker is found); a second marker of any name returns the ambiguity error at
once. -/
def detectArchGo (archs : List String) : List String → Option String → Except String String
  | [], none => .error "failed to detect architecture"
  | [], some a => .ok a
  | l :: rest, st =>
    if archLineMatch l.data then
      let option := archOptionOf l.data
      if option ∈ archs then
        match st with
        | none => detectArchGo archs rest (some option)
        | some _ => .error "more than one supported architecture is detected"
      else detectArchGo archs rest st
    else detectArchGo archs rest st

/-- `detect_arch` over the file's lines; `(None, msg)` is `Except.error msg`
and `(arch, 'OK')` is `Except.ok arch`. -/
def detectArch (lines : List String) (archs : List String) : Except String String :=
  detectArchGo archs lines none

/-- The architecture markers of the file, in order: names of lines matching
the enabled-boolean pattern whose option is in `archs`. -/
def markersOf (archs : List String) (lines : List String) : List String :=
  lines.filterMap fun l =>
    if archLineMatch l.data then
      let option := archOptionOf l.data
      if option ∈ archs then some option else none
    else none

/-! Claims and lemmas: Population (`populate_simple_opt_with_data` and friends,
src lines 803-838) -/

/-- The parsed data handed to one population pass: a kconfig map, a cmdline
map, or the version pair. -/
inductive PopData where
  | kconfig (m : List (String × String))
  | cmdline (m : List (String × String))
  | version (v : Nat × Nat)

/-- The `data_type` string of a pass. -/
def PopData.kindStr : PopData → String
  | .kconfig _ => "kconfig"
  | .cmdline _ => "cmdline"
  | .version _ => "version"

/-- The `type` property of a check (`'complex'` for `OR`/`AND`). -/
def typeStr : Check → String
  | .simple .kconfig _ _ _ => "kconfig"
  | .simple .cmdline _ _ _ => "cmdline"
  | .version _ _ => "version"
  | .orC _ => "complex"
  | .andC _ => "complex"

/-- `populate_simple_opt_with_data` (src lines 803-819): a no-op unless the
pass kind matches the check kind; a matching kconfig/cmdline check gets
`state = data.get(name, None)`, a matching version check gets `ver = data`.
The callers only pass non-complex checks (the complex case is an assertion
in the source and unreachable, the catch-all below keeps the function total). -/
def populateSimpleOptWithData (c : Check) (d : PopData) : Check :=
  match c, d with
  | .simple .kconfig n e _, .kconfig m => .simple .kconfig n e (alookup m n)
  | .simple .cmdline n e _, .cmdline m => .simple .cmdline n e (alookup m n)
  | .version ve _, .version v => .version ve (some v)
  | c, _ => c

mutual
/-- The complex branch of `populate_opt_with_data` (src lines 822-829):
recurse into children, populating nested compounds recursively and simple
children directly. -/
def populateOptComplex : Check → PopData → Check
  | .orC cs, d => .orC (populateChildrenWithData cs d)
  | .andC cs, d => .andC (populateChildrenWithData cs d)
  | c, _ => c
def populateChildrenWithData : CheckList → PopData → CheckList
  | .nil, _ => .nil
  | .cons o rest, d =>
    .cons
      (match o with
       | .orC _ => populateOptComplex o d
       | .andC _ => populateOptComplex o d
       | _ => populateSimpleOptWithData o d)
      (populateChildrenWithData rest d)
end

/-- `populate_opt_with_data` (src lines 822-833): complex checks recurse;
simple checks must be kconfig/cmdline (a bare top-level `VersionCheck` fails
the assertion on src line 831). -/
def populateOptWithData (c : Check) (d : PopData) : Except String Check :=
  match c with
  | .orC _ => .ok (populateOptComplex c d)
  | .andC _ => .ok (populateOptComplex c d)
  | .simple _ _ _ _ => .ok (populateSimpleOptWithData c d)
  | .version _ _ => .error "AssertionError: bad type version for a simple check"

/-- `populate_with_data` (src lines 836-838) over a checklist. -/
def populateWithData : List Check → PopData → Except String (List Check)
  | [], _ => .ok []
  | c :: rest, d =>
    match populateOptWithData c d with
    | .error m => .error m
    | .ok c' =>
      match populateWithData rest d with
      | .error m => .error m
      | .ok rest' => .ok (c' :: rest')

/-! Claims and lemmas: Helper lemmas -/

theorem isPass_fail_quote (s : String) : isPass ("FAIL: \"" ++ s ++ "\"") = false := rfl

theorem isPass_ok_version (t : String) : isPass ("OK: version >= " ++ t) = true := rfl

theorem isPass_fail_version (t : String) : isPass ("FAIL: version < " ++ t) = false := rfl

/-! Claims and lemmas: C1 -/

/-- C1: the decision procedure of a simple build-option or boot-parameter
check is total and by cases: no expected value means PASS iff present,
with FAIL "not present" otherwise; an expected value equal to the actual
state is a plain PASS; an absent actual state is PASS "not found" exactly
when the expected value is the sentinel "is not set" and FAIL "not found"
otherwise; a present but mismatched state is FAIL quoting the observed
value. -/
theorem simple_check_decision (e st : Option String) :
    (isPass (optCheckResult e st) = true ↔
      (e = none ∧ st ≠ none) ∨ (∃ s, st = some s ∧ e = some s) ∨
        (st = none ∧ e = some "is not set")) ∧
    (e = none → st = none → optCheckResult e st = "FAIL: not present") ∧
    (e = none → st ≠ none → optCheckResult e st = "OK: is present") ∧
    (∀ E, e = some E → st = some E → optCheckResult e st = "OK") ∧
    (∀ E, e = some E → st = none → E = "is not set" →
      optCheckResult e st = "OK: not found") ∧
    (∀ E, e = some E → st = none → E ≠ "is not set" →
      optCheckResult e st = "FAIL: not found") ∧
    (∀ E s, e = some E → st = some s → s ≠ E →
      optCheckResult e st = "FAIL: \"" ++ s ++ "\"") := by
  refine ⟨?_, ?_, ?_, ?_, ?_, ?_, ?_⟩
  · cases e with
    | none =>
      cases st with
      | none => simp [optCheckResult]; decide
      | some s => simp [optCheckResult]; decide
    | some E =>
      cases st with
      | none =>
        by_cases hE : E = "is not set"
        · subst hE; simp [optCheckResult]; decide
        · simp [optCheckResult, hE]; decide
      | some s =>
        by_cases hs : s = E
        · subst hs; simp [optCheckResult]; decide
        · have hres : optCheckResult (some E) (some s) = "FAIL: \"" ++ s ++ "\"" := by
            simp [optCheckResult, hs]
          rw [hres, isPass_fail_quote]
          apply iff_of_false (by decide)
          rintro (⟨h, -⟩ | ⟨s', hs', he'⟩ | ⟨h, -⟩)
          · exact Option.noConfusion h
          · rw [Option.some_inj] at hs' he'
            exact hs (hs' ▸ he' ▸ rfl)
          · exact Option.noConfusion h
  · rintro rfl rfl; rfl
  · rintro rfl h
    cases st with
    | none => exact absurd rfl h
    | some s => rfl
  · rintro E rfl rfl
    simp [optCheckResult]
  · rintro E rfl rfl rfl; rfl
  · rintro E rfl rfl hne
    simp [optCheckResult, hne]
  · rintro E s rfl rfl hne
    simp [optCheckResult, hne]

/-- Witness for C1: a present-but-mismatched kconfig value fails quoting the
observed value. -/
theorem simple_check_decision_witness :
    optCheckResult (some "y") (some "m") = "FAIL: \"m\"" :=
  (simple_check_decision (some "y") (some "m")).2.2.2.2.2.2 "y" "m" rfl rfl (by decide)

/-! Claims and lemmas: C4 -/

/-- C4: a populated version check passes iff the actual (major, minor) pair
is lexicographically at least the required pair, and its outcome text always
states the required bound. -/
theorem version_check_lex (ve v : Nat × Nat) :
    (isPass (versionCheckResult ve v) = true ↔
      ve.fst < v.fst ∨ (v.fst = ve.fst ∧ ve.snd ≤ v.snd)) ∧
    (versionCheckResult ve v =
        "OK: version >= " ++ toString ve.fst ++ "." ++ toString ve.snd ∨
      versionCheckResult ve v =
        "FAIL: version < " ++ toString ve.fst ++ "." ++ toString ve.snd) := by
  obtain ⟨em, en⟩ := ve
  obtain ⟨am, an⟩ := v
  constructor
  · unfold versionCheckResult
    dsimp only
    split
    · rename_i h
      rw [show ("OK: version >= " ++ toString em ++ "." ++ toString en) =
          "OK: version >= " ++ (toString em ++ "." ++ toString en) by
            simp [String.append_assoc]]
      rw [isPass_ok_version]
      simp; omega
    · split
      · rename_i h1 h2
        rw [show ("FAIL: version < " ++ toString em ++ "." ++ toString en) =
            "FAIL: version < " ++ (toString em ++ "." ++ toString en) by
              simp [String.append_assoc]]
        rw [isPass_fail_version]
        simp; omega
      · split
        · rename_i h1 h2 h3
          rw [show ("OK: version >= " ++ toString em ++ "." ++ toString en) =
              "OK: version >= " ++ (toString em ++ "." ++ toString en) by
                simp [String.append_assoc]]
          rw [isPass_ok_version]
          simp; omega
        · rename_i h1 h2 h3
          rw [show ("FAIL: version < " ++ toString em ++ "." ++ toString en) =
              "FAIL: version < " ++ (toString em ++ "." ++ toString en) by
                simp [String.append_assoc]]
          rw [isPass_fail_version]
          simp; omega
  · unfold versionCheckResult
    dsimp only
    split
    · exact Or.inl rfl
    · split
      · exact Or.inr rfl
      · split
        · exact Or.inl rfl
        · exact Or.inr rfl

/-! Claims and lemmas: C7 -/

/-- C7: cmdline value normalization: the parameters pti and debugfs keep
their value unchanged whatever it is; for every other parameter the fixed
truthy spellings normalize to "1", the fixed falsy spellings to "0", and any
other value passes through unchanged. -/
theorem cmdline_normalize_spellings :
    (∀ v, normalizeCmdlineOptions "pti" v = v) ∧
    (∀ v, normalizeCmdlineOptions "debugfs" v = v) ∧
    (∀ o v, o ≠ "pti" → o ≠ "debugfs" →
      ((v ∈ ["1", "on", "On", "ON", "y", "Y", "yes", "Yes", "YES"] →
          normalizeCmdlineOptions o v = "1") ∧
       (v ∈ ["0", "off", "Off", "OFF", "n", "N", "no", "No", "NO"] →
          normalizeCmdlineOptions o v = "0") ∧
       (v ∉ ["1", "on", "On", "ON", "y", "Y", "yes", "Yes", "YES"] →
        v ∉ ["0", "off", "Off", "OFF", "n", "N", "no", "No", "NO"] →
          normalizeCmdlineOptions o v = v))) := by
  refine ⟨fun v => rfl, fun v => rfl, fun o v ho1 ho2 => ⟨?_, ?_, ?_⟩⟩
  · intro hv
    simp [normalizeCmdlineOptions, ho1, ho2, hv]
  · intro hv
    have hnot : v ∉ ["1", "on", "On", "ON", "y", "Y", "yes", "Yes", "YES"] := by
      fin_cases hv <;> decide
    simp [normalizeCmdlineOptions, ho1, ho2, hnot, hv]
  · intro h1 h0
    simp [normalizeCmdlineOptions, ho1, ho2, h1, h0]

/-- Witness for C7: the spelling ON of a non-exempt parameter normalizes
to 1. -/
theorem cmdline_normalize_spellings_witness :
    normalizeCmdlineOptions "mitigations" "ON" = "1" :=
  (cmdline_normalize_spellings.2.2 "mitigations" "ON" (by decide) (by decide)).1 (by decide)

/-! Claims and lemmas: Helper lemmas for the combinators -/

theorem listLeads_ex (p : List Char) :
    ∀ s, listLeads p s = true → ∃ tl, s = p ++ tl := by
  induction p with
  | nil => exact fun s _ => ⟨s, rfl⟩
  | cons a ps ih =>
    intro s h
    cases s with
    | nil => simp [listLeads] at h
    | cons b cs =>
      simp only [listLeads] at h
      split at h
      · rename_i hab
        obtain ⟨tl, htl⟩ := ih cs h
        exact ⟨tl, by rw [hab, htl]; rfl⟩
      · exact absurd h (by simp)

theorem strStartsWith_ex (s pat : String) (h : strStartsWith s pat = true) :
    ∃ tl, s = String.mk (pat.data ++ tl) := by
  obtain ⟨tl, htl⟩ := listLeads_ex pat.data s.data h
  refine ⟨tl, ?_⟩
  cases s with
  | mk d =>
    simp only [String.data] at htl
    exact congrArg String.mk htl

theorem isPass_of_ok_version (r : String)
    (h : strStartsWith r "OK: version" = true) : isPass r = true := by
  obtain ⟨tl, rfl⟩ := strStartsWith_ex r "OK: version" h
  rfl

theorem isPass_false_of_fail_quote (r : String)
    (h : strStartsWith r "FAIL: \"" = true) : isPass r = false := by
  obtain ⟨tl, rfl⟩ := strStartsWith_ex r "FAIL: \"" h
  rfl

theorem isPass_false_of_fail_version (r : String)
    (h : strStartsWith r "FAIL: version" = true) : isPass r = false := by
  obtain ⟨tl, rfl⟩ := strStartsWith_ex r "FAIL: version" h
  rfl

theorem orAnnotate_version (c : Check) (r : String)
    (h : strStartsWith r "OK: version" = true) : orAnnotate c r = .ok r := by
  obtain ⟨tl, rfl⟩ := strStartsWith_ex r "OK: version" h
  rfl

theorem andFailResult_version (c : Check) (r : String)
    (h : strStartsWith r "FAIL: version" = true) : andFailResult c r = .ok r := by
  obtain ⟨tl, rfl⟩ := strStartsWith_ex r "FAIL: version" h
  rfl

theorem runCheck_orC (cs : CheckList) : runCheck (.orC cs) = runOr cs := by
  simp [runCheck]

theorem runCheck_andC (cs : CheckList) : runCheck (.andC cs) = runAnd cs := by
  simp [runCheck]

theorem runOr_cons (c0 : Check) (rest : CheckList) (r0 : String)
    (h : runCheck c0 = .ok r0) :
    runOr (.cons c0 rest) =
      if isPass r0 = true then .ok r0 else runOrGo r0 rest := by
  simp [runOr, h, isPass]

theorem runOrGo_cons (r0 : String) (c : Check) (rest : CheckList) (r : String)
    (h : runCheck c = .ok r) :
    runOrGo r0 (.cons c rest) =
      if isPass r = true then orAnnotate c r else runOrGo r0 rest := by
  simp [runOrGo, h, isPass]

theorem runOrGo_skip (r0 : String) (pre : List Check) (l : List Check)
    (hpre : ∀ c ∈ pre, ∃ r, runCheck c = .ok r ∧ isPass r = false) :
    runOrGo r0 (ofList (pre ++ l)) = runOrGo r0 (ofList l) := by
  induction pre with
  | nil => rfl
  | cons a pre ih =>
    obtain ⟨r, hr, hf⟩ := hpre a (List.mem_cons_self a pre)
    rw [show ofList ((a :: pre) ++ l) = .cons a (ofList (pre ++ l)) from rfl]
    rw [runOrGo_cons r0 a _ r hr, hf]
    simp only [Bool.false_eq_true, if_false]
    exact ih fun c hc => hpre c (List.mem_cons_of_mem a hc)

theorem runOrGo_all_fail (r0 : String) (l : List Check)
    (hl : ∀ c ∈ l, ∃ r, runCheck c = .ok r ∧ isPass r = false) :
    runOrGo r0 (ofList l) = .ok r0 := by
  have := runOrGo_skip r0 l [] hl
  simpa using this

theorem runAndTail_all_pass (l : List Check)
    (hl : ∀ c ∈ l, ∃ r, runCheck c = .ok r ∧ isPass r = true) :
    runAndTail (ofList l) = none := by
  induction l with
  | nil => rfl
  | cons a l ih =>
    obtain ⟨r, hr, hp⟩ := hl a (List.mem_cons_self a l)
    rw [show ofList (a :: l) = .cons a (ofList l) from rfl]
    rw [runAndTail, ih fun c hc => hl c (List.mem_cons_of_mem a hc), hr]
    simp [isPass] at hp
    simp [hp]

theorem runAndTail_propagate (l1 l2 : List Check) (r : Except String String)
    (h : runAndTail (ofList l2) = some r) :
    runAndTail (ofList (l1 ++ l2)) = some r := by
  induction l1 with
  | nil => simpa using h
  | cons a l1 ih =>
    rw [show ofList ((a :: l1) ++ l2) = .cons a (ofList (l1 ++ l2)) from rfl]
    rw [runAndTail, ih]

theorem runAndTail_stop (f : Check) (post : List Check) (rf : String)
    (hpost : ∀ c ∈ post, ∃ r, runCheck c = .ok r ∧ isPass r = true)
    (hf : runCheck f = .ok rf) (hfail : isPass rf = false) :
    runAndTail (ofList (f :: post)) = some (andFailResult f rf) := by
  rw [show ofList (f :: post) = .cons f (ofList post) from rfl]
  rw [runAndTail, runAndTail_all_pass post hpost, hf]
  simp [isPass] at hfail
  simp [hfail]

/-! Claims and lemmas: C2 -/

/-- C2: an OR compound evaluates its children in order and stops at the
earliest PASS-class child.  A passing first child gives its result verbatim;
a passing later child gives its result re-annotated with that child's name
(three literal shapes) or, for a version-style result, verbatim; if no child
passes the result is exactly the first child's failing result, untouched by
whatever stands after the winning prefix. -/
theorem or_check_shortcircuit (c0 : Check) :
    (∀ (rest : List Check) (r0 : String),
        runCheck c0 = .ok r0 → isPass r0 = true →
        runCheck (.orC (ofList (c0 :: rest))) = .ok r0) ∧
    (∀ (pre post : List Check) (w : Check) (r0 winR n : String) (e : Option String),
        runCheck c0 = .ok r0 → isPass r0 = false →
        (∀ c ∈ pre, ∃ r, runCheck c = .ok r ∧ isPass r = false) →
        runCheck w = .ok winR → isPass winR = true →
        nameOf w = .ok n → expectedOf w = .ok e →
        (winR = "OK" ∨ winR = "OK: not found" ∨ winR = "OK: is present") →
        runCheck (.orC (ofList (c0 :: (pre ++ w :: post)))) =
          .ok (if winR = "OK" then "OK: " ++ n ++ " \"" ++ fmtExpected e ++ "\""
               else if winR = "OK: not found" then "OK: " ++ n ++ " not found"
               else "OK: " ++ n ++ " is present")) ∧
    (∀ (pre post : List Check) (w : Check) (r0 winR : String),
        runCheck c0 = .ok r0 → isPass r0 = false →
        (∀ c ∈ pre, ∃ r, runCheck c = .ok r ∧ isPass r = false) →
        runCheck w = .ok winR → strStartsWith winR "OK: version" = true →
        runCheck (.orC (ofList (c0 :: (pre ++ w :: post)))) = .ok winR) ∧
    (∀ (rest : List Check) (r0 : String),
        runCheck c0 = .ok r0 → isPass r0 = false →
        (∀ c ∈ rest, ∃ r, runCheck c = .ok r ∧ isPass r = false) →
        runCheck (.orC (ofList (c0 :: rest))) = .ok r0) := by
  refine ⟨?_, ?_, ?_, ?_⟩
  · intro rest r0 h0 hp
    rw [show ofList (c0 :: rest) = .cons c0 (ofList rest) from rfl,
        runCheck_orC, runOr_cons c0 _ r0 h0, hp]
    simp
  · intro pre post w r0 winR n e h0 h0f hpre hw hwp hn he hshape
    rw [show ofList (c0 :: (pre ++ w :: post)) = .cons c0 (ofList (pre ++ w :: post)) from rfl,
        runCheck_orC, runOr_cons c0 _ r0 h0, h0f]
    simp only [Bool.false_eq_true, if_false]
    rw [runOrGo_skip r0 pre (w :: post) hpre]
    rw [show ofList (w :: post) = .cons w (ofList post) from rfl,
        runOrGo_cons r0 w _ winR hw, hwp]
    simp only [if_true]
    rcases hshape with rfl | rfl | rfl
    · simp only [orAnnotate, if_pos rfl]
      rw [hn, he]
      rfl
    · simp [orAnnotate, hn, Except.bind]
    · simp [orAnnotate, hn, Except.bind]
  · intro pre post w r0 winR h0 h0f hpre hw hver
    rw [show ofList (c0 :: (pre ++ w :: post)) = .cons c0 (ofList (pre ++ w :: post)) from rfl,
        runCheck_orC, runOr_cons c0 _ r0 h0, h0f]
    simp only [Bool.false_eq_true, if_false]
    rw [runOrGo_skip r0 pre (w :: post) hpre]
    rw [show ofList (w :: post) = .cons w (ofList post) from rfl,
        runOrGo_cons r0 w _ winR hw, isPass_of_ok_version winR hver]
    simp only [if_true]
    exact orAnnotate_version w winR hver
  · intro rest r0 h0 h0f hrest
    rw [show ofList (c0 :: rest) = .cons c0 (ofList rest) from rfl,
        runCheck_orC, runOr_cons c0 _ r0 h0, h0f]
    simp only [Bool.false_eq_true, if_false]
    exact runOrGo_all_fail r0 rest hrest

/-- Witness for C2: with the primary option absent and a fallback set to the
expected value, the OR passes and is re-annotated with the fallback's name. -/
theorem or_check_shortcircuit_witness :
    runCheck (.orC (ofList
      [ .simple .kconfig "CONFIG_FOO" (some "y") none,
        .simple .kconfig "CONFIG_FOO_LEGACY" (some "y") (some "y") ]))
      = .ok "OK: CONFIG_FOO_LEGACY \"y\"" := by
  have h := (or_check_shortcircuit (.simple .kconfig "CONFIG_FOO" (some "y") none)).2.1
    [] [] (.simple .kconfig "CONFIG_FOO_LEGACY" (some "y") (some "y"))
    "FAIL: not found" "OK" "CONFIG_FOO_LEGACY" (some "y")
    rfl rfl (by intro c hc; cases hc) rfl rfl rfl rfl (Or.inl rfl)
  simpa using h

/-! Claims and lemmas: C3 -/

/-- C3: an AND compound evaluates its children in reverse order: if some
child of index greater than 0 fails while every later child passes, the
result is synthesized from that failing child (its name and expected value
for the two option-shaped failures, its own message for a version failure)
and the first child never contributes — the result is the same whatever
stands in the first position or between the first child and the failing one;
if every child of index greater than 0 passes, the result is exactly the
first child's own result. -/
theorem and_check_reverse (rest : List Check) :
    (∀ (pre post : List Check) (f : Check) (rf n : String) (e : Option String),
        rest = pre ++ f :: post →
        (∀ c ∈ post, ∃ r, runCheck c = .ok r ∧ isPass r = true) →
        runCheck f = .ok rf →
        (strStartsWith rf "FAIL: \"" = true ∨ rf = "FAIL: not found") →
        nameOf f = .ok n → expectedOf f = .ok e →
        ∀ c0, runCheck (.andC (ofList (c0 :: rest))) =
          .ok ("FAIL: " ++ n ++ " not \"" ++ fmtExpected e ++ "\"")) ∧
    (∀ (pre post : List Check) (f : Check) (n : String),
        rest = pre ++ f :: post →
        (∀ c ∈ post, ∃ r, runCheck c = .ok r ∧ isPass r = true) →
        runCheck f = .ok "FAIL: not present" →
        nameOf f = .ok n →
        ∀ c0, runCheck (.andC (ofList (c0 :: rest))) =
          .ok ("FAIL: " ++ n ++ " not present")) ∧
    (∀ (pre post : List Check) (f : Check) (rf : String),
        rest = pre ++ f :: post →
        (∀ c ∈ post, ∃ r, runCheck c = .ok r ∧ isPass r = true) →
        runCheck f = .ok rf → strStartsWith rf "FAIL: version" = true →
        ∀ c0, runCheck (.andC (ofList (c0 :: rest))) = .ok rf) ∧
    ((∀ c ∈ rest, ∃ r, runCheck c = .ok r ∧ isPass r = true) →
        ∀ c0, runCheck (.andC (ofList (c0 :: rest))) = runCheck c0) := by
  refine ⟨?_, ?_, ?_, ?_⟩
  · rintro pre post f rf n e rfl hpost hf hshape hn he c0
    have hfail : isPass rf = false := by
      rcases hshape with h | rfl
      · exact isPass_false_of_fail_quote rf h
      · rfl
    rw [show ofList (c0 :: (pre ++ f :: post)) = .cons c0 (ofList (pre ++ f :: post)) from rfl,
        runCheck_andC, runAnd,
        runAndTail_propagate pre (f :: post) _ (runAndTail_stop f post rf hpost hf hfail)]
    have hres : andFailResult f rf = .ok ("FAIL: " ++ n ++ " not \"" ++ fmtExpected e ++ "\"") := by
      have hcond : (strStartsWith rf "FAIL: \"" || rf = "FAIL: not found") = true := by
        rcases hshape with h | rfl
        · simp [h]
        · simp
      simp only [andFailResult, hcond, if_pos rfl]
      rw [hn, he]
      rfl
    rw [hres]
  · rintro pre post f n rfl hpost hf hn c0
    rw [show ofList (c0 :: (pre ++ f :: post)) = .cons c0 (ofList (pre ++ f :: post)) from rfl,
        runCheck_andC, runAnd,
        runAndTail_propagate pre (f :: post) _
          (runAndTail_stop f post "FAIL: not present" hpost hf rfl)]
    have hres : andFailResult f "FAIL: not present" = .ok ("FAIL: " ++ n ++ " not present") := by
      simp [andFailResult, strStartsWith, listLeads, hn, Except.bind]
    rw [hres]
  · rintro pre post f rf rfl hpost hf hver c0
    have hfail : isPass rf = false := isPass_false_of_fail_version rf hver
    rw [show ofList (c0 :: (pre ++ f :: post)) = .cons c0 (ofList (pre ++ f :: post)) from rfl,
        runCheck_andC, runAnd,
        runAndTail_propagate pre (f :: post) _ (runAndTail_stop f post rf hpost hf hfail)]
    rw [andFailResult_version f rf hver]
  · intro hall c0
    rw [show ofList (c0 :: rest) = .cons c0 (ofList rest) from rfl,
        runCheck_andC, runAnd, runAndTail_all_pass rest hall]

/-- Witness for C3: an AND whose auxiliary option is absent fails naming the
auxiliary option, whatever the primary option holds. -/
theorem and_check_reverse_witness :
    runCheck (.andC (ofList
      [ .simple .kconfig "CONFIG_MAIN" (some "y") (some "y"),
        .simple .kconfig "CONFIG_AUX" (some "y") none ]))
      = .ok "FAIL: CONFIG_AUX not \"y\"" := by
  have h := (and_check_reverse [.simple .kconfig "CONFIG_AUX" (some "y") none]).1
    [] [] (.simple .kconfig "CONFIG_AUX" (some "y") none)
    "FAIL: not found" "CONFIG_AUX" (some "y")
    rfl (by intro c hc; cases hc) rfl (Or.inr rfl) rfl rfl
    (.simple .kconfig "CONFIG_MAIN" (some "y") (some "y"))
  simpa using h

/-! Claims and lemmas: C10 -/

/-- C10: when the earliest passing child of an OR has index greater than 0,
its own result string must be exactly OK, OK: not found, OK: is present, or
start with OK: version; any other PASS-class result — such as the
re-annotated result of a nested OR that passed through its own non-first
child — fails the assertion in OR.check, a fatal error instead of a compound
outcome. -/
theorem or_annotation_assert_fatal (c0 w : Check) (pre post : List Check)
    (r0 winR : String)
    (h0 : runCheck c0 = .ok r0) (h0f : isPass r0 = false)
    (hpre : ∀ c ∈ pre, ∃ r, runCheck c = .ok r ∧ isPass r = false)
    (hw : runCheck w = .ok winR) (hwp : isPass winR = true)
    (hb1 : winR ≠ "OK") (hb2 : winR ≠ "OK: not found")
    (hb3 : winR ≠ "OK: is present")
    (hb4 : strStartsWith winR "OK: version" = false) :
    runCheck (.orC (ofList (c0 :: (pre ++ w :: post)))) =
      .error ("AssertionError: unexpected OK description " ++ winR) := by
  rw [show ofList (c0 :: (pre ++ w :: post)) = .cons c0 (ofList (pre ++ w :: post)) from rfl,
      runCheck_orC, runOr_cons c0 _ r0 h0, h0f]
  simp only [Bool.false_eq_true, if_false]
  rw [runOrGo_skip r0 pre (w :: post) hpre]
  rw [show ofList (w :: post) = .cons w (ofList post) from rfl,
      runOrGo_cons r0 w _ winR hw, hwp]
  simp only [if_true]
  simp [orAnnotate, hb1, hb2, hb3, hb4]

/-- Witness for C10: a nested OR that passed through its second child carries
the re-annotated result OK: CONFIG_C "y", and the outer OR dies on its
assertion. -/
theorem or_annotation_assert_fatal_witness :
    runCheck (.orC (ofList
      [ .simple .kconfig "CONFIG_A" (some "y") none,
        .orC (ofList
          [ .simple .kconfig "CONFIG_B" (some "y") none,
            .simple .kconfig "CONFIG_C" (some "y") (some "y") ]) ]))
      = .error "AssertionError: unexpected OK description OK: CONFIG_C \"y\"" := by
  have h := or_annotation_assert_fatal
    (.simple .kconfig "CONFIG_A" (some "y") none)
    (.orC (ofList
      [ .simple .kconfig "CONFIG_B" (some "y") none,
        .simple .kconfig "CONFIG_C" (some "y") (some "y") ]))
    [] [] "FAIL: not found" "OK: CONFIG_C \"y\""
    rfl rfl (by intro c hc; cases hc) (by decide) rfl
    (by decide) (by decide) (by decide) rfl
  simpa using h

/-! Claims and lemmas: C8 -/

theorem markersOf_cons (archs : List String) (l : String) (rest : List String) :
    markersOf archs (l :: rest) =
      if archLineMatch l.data then
        if archOptionOf l.data ∈ archs then archOptionOf l.data :: markersOf archs rest
        else markersOf archs rest
      else markersOf archs rest := by
  by_cases hm : archLineMatch l.data
  · by_cases ha : archOptionOf l.data ∈ archs
    · simp [markersOf, List.filterMap_cons, hm, ha]
    · simp [markersOf, List.filterMap_cons, hm, ha]
  · simp [markersOf, List.filterMap_cons, hm]

theorem detectArchGo_some (archs : List String) (lines : List String) (a : String) :
    detectArchGo archs lines (some a) =
      match markersOf archs lines with
      | [] => .ok a
      | _ :: _ => .error "more than one supported architecture is detected" := by
  induction lines with
  | nil => rfl
  | cons l rest ih =>
    rw [detectArchGo, markersOf_cons]
    by_cases hm : archLineMatch l.data
    · by_cases ha : archOptionOf l.data ∈ archs
      · simp [hm, ha]
      · simp [hm, ha, ih]
    · simp [hm, ih]

theorem detectArchGo_none (archs : List String) (lines : List String) :
    detectArchGo archs lines none =
      match markersOf archs lines with
      | [] => .error "failed to detect architecture"
      | [a] => .ok a
      | _ :: _ :: _ => .error "more than one supported architecture is detected" := by
  induction lines with
  | nil => rfl
  | cons l rest ih =>
    rw [detectArchGo, markersOf_cons]
    by_cases hm : archLineMatch l.data
    · by_cases ha : archOptionOf l.data ∈ archs
      · simp only [hm, ha, if_true]
        rw [detectArchGo_some]
        cases hmk : markersOf archs rest <;> simp
      · simp [hm, ha, ih]
    · simp [hm, ih]

/-- C8: architecture detection succeeds iff exactly one line of the file is
an enabled-boolean marker whose option name is in the known-architecture
list, in which case it returns that architecture; zero markers or two or
more markers (even two occurrences of the same marker) give a detection
error. -/
theorem arch_detection_unique_marker (lines archs : List String) :
    (∀ a, detectArch lines archs = .ok a ↔ markersOf archs lines = [a]) ∧
    ((∃ m, detectArch lines archs = .error m) ↔ (markersOf archs lines).length ≠ 1) := by
  constructor
  · intro a
    rw [detectArch, detectArchGo_none]
    cases hmk : markersOf archs lines with
    | nil => simp
    | cons b rest =>
      cases rest with
      | nil => simp
      | cons b2 rest2 => simp
  · rw [detectArch, detectArchGo_none]
    cases hmk : markersOf archs lines with
    | nil => simp
    | cons b rest =>
      cases rest with
      | nil => simp
      | cons b2 rest2 => simp

/-- Witness for C8: a config with a single recognized marker line yields that
architecture. -/
theorem arch_detection_unique_marker_witness :
    detectArch ["# comment\n", "CONFIG_X86_64=y\n", "CONFIG_FOO=y\n"] ["X86_64", "ARM64"]
      = .ok "X86_64" :=
  ((arch_detection_unique_marker
      ["# comment\n", "CONFIG_X86_64=y\n", "CONFIG_FOO=y\n"] ["X86_64", "ARM64"]).1
    "X86_64").mpr (by decide)

/-! Claims and lemmas: C6 -/

theorem twAll {α : Type} (p : α → Bool) (l1 l2 : List α)
    (h : ∀ c ∈ l1, p c = true) :
    (l1 ++ l2).takeWhile p = l1 ++ l2.takeWhile p := by
  induction l1 with
  | nil => rfl
  | cons a l ih =>
    rw [List.cons_append, List.takeWhile_cons, h a (List.mem_cons_self a l)]
    rw [List.cons_append, ih fun c hc => h c (List.mem_cons_of_mem a hc)]
    rfl

theorem dwAll {α : Type} (p : α → Bool) (l1 l2 : List α)
    (h : ∀ c ∈ l1, p c = true) :
    (l1 ++ l2).dropWhile p = l2.dropWhile p := by
  induction l1 with
  | nil => rfl
  | cons a l ih =>
    rw [List.cons_append, List.dropWhile_cons, h a (List.mem_cons_self a l)]
    exact ih fun c hc => h c (List.mem_cons_of_mem a hc)

theorem twStop {α : Type} (p : α → Bool) (a : α) (l : List α) (ha : p a = false) :
    (a :: l).takeWhile p = [] := by
  rw [List.takeWhile_cons, ha]
  rfl

theorem dwStop {α : Type} (p : α → Bool) (a : α) (l : List α) (ha : p a = false) :
    (a :: l).dropWhile p = a :: l := by
  rw [List.dropWhile_cons, ha]
  rfl

theorem alookup_dictAssign_self (m : List (String × String)) (k v : String) :
    alookup (dictAssign m k v) k = some v := by
  induction m with
  | nil => simp [dictAssign, alookup]
  | cons p rest ih =>
    obtain ⟨k', v'⟩ := p
    by_cases hk : k' = k
    · simp [dictAssign, alookup, hk]
    · simp [dictAssign, alookup, hk, ih]

theorem alookup_dictAssign_ne (m : List (String × String)) (k v k' : String)
    (h : k' ≠ k) : alookup (dictAssign m k v) k' = alookup m k' := by
  have hne : k ≠ k' := fun hh => h hh.symm
  induction m with
  | nil => simp [dictAssign, alookup, hne]
  | cons p rest ih =>
    obtain ⟨k0, v0⟩ := p
    by_cases hk : k0 = k
    · subst hk
      simp [dictAssign, alookup, hne]
    · simp only [dictAssign, if_neg hk, alookup]
      by_cases hk0' : k0 = k'
      · simp [hk0']
      · simp [hk0', ih]

theorem foldl_cmdlineStep_notmem (toks : List (List Char)) :
    ∀ (m : List (String × String)) (n : String),
      (∀ tok ∈ toks, tokName tok ≠ n) →
      alookup (toks.foldl cmdlineStep m) n = alookup m n := by
  induction toks with
  | nil => intro m n _; rfl
  | cons t ts ih =>
    intro m n h
    rw [List.foldl_cons, ih (cmdlineStep m t) n fun tok htok => h tok (List.mem_cons_of_mem t htok)]
    exact alookup_dictAssign_ne m _ _ n fun hh => h t (List.mem_cons_self t ts) hh.symm

theorem foldl_cmdlineStep_mem (toks : List (List Char)) :
    ∀ (m : List (String × String)) (tok : List Char),
      tok ∈ toks → (toks.map tokName).Nodup →
      alookup (toks.foldl cmdlineStep m) (tokName tok) =
        some (normalizeCmdlineOptions (tokName tok) (tokVal tok)) := by
  induction toks with
  | nil => intro m tok h _; cases h
  | cons t ts ih =>
    intro m tok htok hnd
    rw [List.map_cons, List.nodup_cons] at hnd
    obtain ⟨hnotin, hnd'⟩ := hnd
    rw [List.foldl_cons]
    rcases List.mem_cons.mp htok with rfl | hmem
    · rw [foldl_cmdlineStep_notmem ts (cmdlineStep m tok) (tokName tok)
        fun t' ht' hh => hnotin (hh ▸ List.mem_map_of_mem tokName ht')]
      exact alookup_dictAssign_self m _ _
    · exact ih (cmdlineStep m t) tok hmem hnd'

/-- C6 (amended): the boot-parameter parser fails fatally iff any character
follows the first newline of the file (so a trailing empty line is already
fatal); otherwise it splits the single content line into
whitespace-separated tokens, stores each token under the name left of its
first equals sign with the normalized value right of it, stores a bare token
under its own name with the empty-string value, and the empty string is a
present value, distinct from an absent parameter. -/
theorem cmdline_parse_single_line (content : String) :
    ((∃ m, parseCmdlineFile content = .error m) ↔
      (content.data.dropWhile (fun c => c ≠ '\n')).drop 1 ≠ []) ∧
    (∀ result, parseCmdlineFile content = .ok result →
      ((pyWords (content.data.takeWhile (fun c => c ≠ '\n'))).map tokName).Nodup →
      ∀ tok ∈ pyWords (content.data.takeWhile (fun c => c ≠ '\n')),
        alookup result (tokName tok) =
          some (normalizeCmdlineOptions (tokName tok) (tokVal tok))) ∧
    (∀ n v : List Char, '=' ∉ n →
      tokName (n ++ '=' :: v) = String.mk n ∧ tokVal (n ++ '=' :: v) = String.mk v) ∧
    (∀ tok : List Char, '=' ∉ tok →
      tokName tok = String.mk tok ∧ tokVal tok = "" ∧
      (∀ o, normalizeCmdlineOptions o "" = "") ∧ some "" ≠ (none : Option String)) := by
  refine ⟨?_, ?_, ?_, ?_⟩
  · constructor
    · rintro ⟨m, hm⟩ hrest
      rw [parseCmdlineFile] at hm
      rw [hrest] at hm
      simp at hm
    · intro hrest
      refine ⟨"ERROR: more than one line in the cmdline file", ?_⟩
      rw [parseCmdlineFile]
      simp only [if_pos hrest]
  · intro result hres hnd tok htok
    rw [parseCmdlineFile] at hres
    by_cases hrest : (content.data.dropWhile (fun c => c ≠ '\n')).drop 1 ≠ []
    · rw [if_pos hrest] at hres
      exact Except.noConfusion hres
    · rw [if_neg hrest] at hres
      rw [Except.ok.injEq] at hres
      subst hres
      exact foldl_cmdlineStep_mem _ [] tok htok hnd
  · intro n v hn
    have hall : ∀ c ∈ n, (fun c => decide (c ≠ '=')) c = true :=
      fun c hc => decide_eq_true fun h => hn (h ▸ hc)
    have hmem : '=' ∈ n ++ '=' :: v := List.mem_append_right n (List.mem_cons_self '=' v)
    have htake : (n ++ '=' :: v).takeWhile (fun c => c ≠ '=') = n := by
      rw [twAll _ n ('=' :: v) hall, twStop _ '=' v (by decide), List.append_nil]
    have hdrop : (n ++ '=' :: v).dropWhile (fun c => c ≠ '=') = '=' :: v := by
      rw [dwAll _ n ('=' :: v) hall, dwStop _ '=' v (by decide)]
    constructor
    · rw [tokName, if_pos hmem, htake]
    · rw [tokVal, if_pos hmem, hdrop]
      rfl
  · intro tok htok
    refine ⟨by rw [tokName, if_neg htok], by rw [tokVal, if_neg htok], fun o => ?_, by simp⟩
    by_cases h1 : o = "pti"
    · simp [normalizeCmdlineOptions, h1]
    · by_cases h2 : o = "debugfs"
      · simp [normalizeCmdlineOptions, h1, h2]
      · simp [normalizeCmdlineOptions, h1, h2]

/-- Witness for C6 (amended): in the parse of the one-line file
"rodata=0 nopti", the bare token nopti is present with the empty value. -/
theorem cmdline_parse_single_line_witness :
    alookup ((parseCmdlineFile "rodata=0 nopti\n").toOption.getD []) "nopti" = some "" := by
  have h := (cmdline_parse_single_line "rodata=0 nopti\n").2.1
    [("rodata", "0"), ("nopti", "")] (by decide) (by decide)
    "nopti".data (by decide)
  rw [show tokName "nopti".data = "nopti" from by decide,
      show tokVal "nopti".data = "" from by decide] at h
  rw [show (parseCmdlineFile "rodata=0 nopti\n").toOption.getD [] =
      [("rodata", "0"), ("nopti", "")] from by decide]
  rw [h]
  decide

/-- Counterexample for C6 as stated: the file "a\n\n" contains exactly one
non-empty line, yet the parser fails fatally (the second readline returns
the non-empty string "\n"). -/
theorem cmdline_parse_single_line_cex :
    (∃ m, parseCmdlineFile "a\n\n" = .error m) ∧
    ((linesOf "a\n\n".data).filter (fun l => l ≠ [])).length = 1 :=
  ⟨⟨"ERROR: more than one line in the cmdline file", by decide⟩, by decide⟩

/-! Claims and lemmas: C5 -/

theorem listLeads_self_append (p rest : List Char) : listLeads p (p ++ rest) = true := by
  induction p with
  | nil => rfl
  | cons a ps ih => simp [listLeads, ih]

theorem listLeads_refl (p : List Char) : listLeads p p = true := by
  have := listLeads_self_append p []
  rwa [List.append_nil] at this

theorem nameChar_ne (c : Char) (h : isNameChar c = true) (b : Char)
    (hb : isNameChar b = false) : decide (c ≠ b) = true :=
  decide_eq_true fun hh => by rw [hh] at h; rw [h] at hb; exact Bool.noConfusion hb

theorem kconfig_on_match (nm v : List Char) (hnm : ∀ c ∈ nm, isNameChar c = true) :
    optIsOnMatch ("CONFIG_".data ++ (nm ++ '=' :: v)) = true := by
  have hdw : (("CONFIG_".data ++ (nm ++ '=' :: v)).drop 7).dropWhile isNameChar = '=' :: v := by
    rw [show ("CONFIG_".data ++ (nm ++ '=' :: v)).drop 7 = nm ++ '=' :: v from rfl]
    rw [dwAll isNameChar nm ('=' :: v) hnm, dwStop isNameChar '=' v (by decide)]
  simp only [optIsOnMatch, listLeads_self_append, hdw, Bool.true_and]

theorem kconfig_on_option (nm v : List Char) (hnm : ∀ c ∈ nm, isNameChar c = true) :
    ("CONFIG_".data ++ (nm ++ '=' :: v)).takeWhile (fun c => c ≠ '=') =
      "CONFIG_".data ++ nm := by
  rw [twAll _ "CONFIG_".data _ (by decide)]
  rw [twAll _ nm _ fun c hc => nameChar_ne c (hnm c hc) '=' (by decide)]
  rw [twStop _ '=' v (by decide), List.append_nil]

theorem kconfig_on_value (nm v : List Char) (hnm : ∀ c ∈ nm, isNameChar c = true) :
    (("CONFIG_".data ++ (nm ++ '=' :: v)).dropWhile (fun c => c ≠ '=')).drop 1 = v := by
  rw [dwAll _ "CONFIG_".data _ (by decide)]
  rw [dwAll _ nm _ fun c hc => nameChar_ne c (hnm c hc) '=' (by decide)]
  rw [dwStop _ '=' v (by decide)]
  rfl

theorem kconfig_off_nomatch_on (nm : List Char) (rest : List Char) :
    optIsOnMatch ("# CONFIG_".data ++ (nm ++ rest)) = false := rfl

theorem kconfig_off_match (nm : List Char) (hnm : ∀ c ∈ nm, isNameChar c = true) :
    optIsOffMatch ("# CONFIG_".data ++ (nm ++ " is not set".data)) = true := by
  have hdw : (("# CONFIG_".data ++ (nm ++ " is not set".data)).drop 9).dropWhile isNameChar
      = " is not set".data := by
    rw [show ("# CONFIG_".data ++ (nm ++ " is not set".data)).drop 9
        = nm ++ " is not set".data from rfl]
    rw [dwAll isNameChar nm " is not set".data hnm]
    rw [show (" is not set".data) = ' ' :: "is not set".data from rfl]
    exact dwStop isNameChar ' ' "is not set".data (by decide)
  simp only [optIsOffMatch, listLeads_self_append, hdw, listLeads_refl, Bool.and_self]

theorem kconfig_off_option (nm : List Char) (hnm : ∀ c ∈ nm, isNameChar c = true) :
    (("# CONFIG_".data ++ (nm ++ " is not set".data)).drop 2).takeWhile (fun c => c ≠ ' ')
      = "CONFIG_".data ++ nm := by
  rw [show ("# CONFIG_".data ++ (nm ++ " is not set".data)).drop 2
      = "CONFIG_".data ++ (nm ++ " is not set".data) from rfl]
  rw [twAll _ "CONFIG_".data _ (by decide)]
  rw [twAll _ nm _ fun c hc => nameChar_ne c (hnm c hc) ' ' (by decide)]
  rw [show (" is not set".data) = ' ' :: "is not set".data from rfl]
  rw [twStop _ ' ' "is not set".data (by decide), List.append_nil]

theorem kconfig_off_value (nm : List Char) (hnm : ∀ c ∈ nm, isNameChar c = true) :
    ((("# CONFIG_".data ++ (nm ++ " is not set".data)).drop 2).dropWhile
        (fun c => c ≠ ' ')).drop 1 = "is not set".data := by
  rw [show ("# CONFIG_".data ++ (nm ++ " is not set".data)).drop 2
      = "CONFIG_".data ++ (nm ++ " is not set".data) from rfl]
  rw [dwAll _ "CONFIG_".data _ (by decide)]
  rw [dwAll _ nm _ fun c hc => nameChar_ne c (hnm c hc) ' ' (by decide)]
  rw [show (" is not set".data) = ' ' :: "is not set".data from rfl]
  rw [dwStop _ ' ' "is not set".data (by decide)]
  rfl

theorem kconfig_enabled_line (acc : List (String × String)) (raw : String)
    (nm v : List Char)
    (hstrip : pyStrip raw.data = "CONFIG_".data ++ (nm ++ '=' :: v))
    (hnm : ∀ c ∈ nm, isNameChar c = true)
    (hval : String.mk v ≠ "is not set")
    (hdup : alookup acc (String.mk ("CONFIG_".data ++ nm)) = none) :
    parseKconfigLine acc raw =
      .ok (acc ++ [(String.mk ("CONFIG_".data ++ nm), String.mk v)]) := by
  simp only [parseKconfigLine, hstrip, kconfig_on_match nm v hnm, if_true,
    kconfig_on_option nm v hnm, kconfig_on_value nm v hnm]
  rw [if_neg hval, hdup]
  rfl

theorem kconfig_disabled_line (acc : List (String × String)) (raw : String)
    (nm : List Char)
    (hstrip : pyStrip raw.data = "# CONFIG_".data ++ (nm ++ " is not set".data))
    (hnm : ∀ c ∈ nm, isNameChar c = true)
    (hdup : alookup acc (String.mk ("CONFIG_".data ++ nm)) = none) :
    parseKconfigLine acc raw =
      .ok (acc ++ [(String.mk ("CONFIG_".data ++ nm), "is not set")]) := by
  have hON : optIsOnMatch (pyStrip raw.data) = false := by rw [hstrip]; rfl
  have hOFF : optIsOffMatch (pyStrip raw.data) = true := by
    rw [hstrip]; exact kconfig_off_match nm hnm
  have hopt : ((pyStrip raw.data).drop 2).takeWhile (fun c => c ≠ ' ')
      = "CONFIG_".data ++ nm := by
    rw [hstrip]; exact kconfig_off_option nm hnm
  have hvl : (((pyStrip raw.data).drop 2).dropWhile (fun c => c ≠ ' ')).drop 1
      = "is not set".data := by
    rw [hstrip]; exact kconfig_off_value nm hnm
  simp only [parseKconfigLine, hON, hOFF, hopt, hvl, Bool.false_eq_true, if_false, if_true]
  rw [if_neg (show ¬(String.mk "is not set".data ≠ "is not set") from fun h => h rfl)]
  rw [hdup]
  rfl

theorem kconfig_other_line (acc : List (String × String)) (raw : String)
    (h1 : optIsOnMatch (pyStrip raw.data) = false)
    (h2 : optIsOffMatch (pyStrip raw.data) = false) :
    parseKconfigLine acc raw = .ok acc := by
  simp [parseKconfigLine, h1, h2]

theorem kconfig_enabled_isnotset (acc : List (String × String)) (raw : String)
    (nm : List Char)
    (hstrip : pyStrip raw.data = "CONFIG_".data ++ (nm ++ '=' :: "is not set".data))
    (hnm : ∀ c ∈ nm, isNameChar c = true) :
    ∃ m, parseKconfigLine acc raw = .error m := by
  refine ⟨"ERROR: bad enabled kconfig option "
    ++ String.mk ("CONFIG_".data ++ (nm ++ '=' :: "is not set".data)), ?_⟩
  simp only [parseKconfigLine, hstrip, kconfig_on_match nm _ hnm, if_true,
    kconfig_on_value nm _ hnm]

theorem kconfig_duplicate_enabled (acc : List (String × String)) (raw : String)
    (nm v : List Char)
    (hstrip : pyStrip raw.data = "CONFIG_".data ++ (nm ++ '=' :: v))
    (hnm : ∀ c ∈ nm, isNameChar c = true)
    (hval : String.mk v ≠ "is not set")
    (hdup : (alookup acc (String.mk ("CONFIG_".data ++ nm))).isSome = true) :
    ∃ m, parseKconfigLine acc raw = .error m := by
  refine ⟨"ERROR: kconfig option "
    ++ String.mk ("CONFIG_".data ++ (nm ++ '=' :: v)) ++ " exists multiple times", ?_⟩
  simp only [parseKconfigLine, hstrip, kconfig_on_match nm v hnm, if_true,
    kconfig_on_option nm v hnm, kconfig_on_value nm v hnm]
  rw [if_neg hval, if_pos hdup]

theorem parseKconfigLines_cons (acc : List (String × String)) (l : String)
    (rest : List String) :
    parseKconfigLines acc (l :: rest) =
      match parseKconfigLine acc l with
      | .error m => .error m
      | .ok acc2 => parseKconfigLines acc2 rest := rfl

theorem parseKconfigLines_append (xs : List String) :
    ∀ (acc : List (String × String)) (ys : List String),
      parseKconfigLines acc (xs ++ ys) =
        match parseKconfigLines acc xs with
        | .error m => .error m
        | .ok a => parseKconfigLines a ys := by
  induction xs with
  | nil => intro acc ys; rfl
  | cons l xs ih =>
    intro acc ys
    rw [List.cons_append, parseKconfigLines, parseKconfigLines]
    cases parseKconfigLine acc l with
    | error m => rfl
    | ok a => exact ih a ys

theorem parseKconfigLine_ext (acc : List (String × String)) (raw : String)
    (acc' : List (String × String)) (h : parseKconfigLine acc raw = .ok acc') :
    ∃ ext, acc' = acc ++ ext := by
  simp only [parseKconfigLine] at h
  by_cases h1 : optIsOnMatch (pyStrip raw.data)
  · rw [if_pos h1] at h
    by_cases h2 : String.mk (((pyStrip raw.data).dropWhile (fun c => c ≠ '=')).drop 1)
        = "is not set"
    · rw [if_pos h2] at h
      exact Except.noConfusion h
    · rw [if_neg h2] at h
      by_cases h3 : (alookup acc (String.mk ((pyStrip raw.data).takeWhile
          (fun c => c ≠ '=')))).isSome
      · rw [if_pos h3] at h
        exact Except.noConfusion h
      · rw [if_neg h3, Except.ok.injEq] at h
        exact ⟨_, h.symm⟩
  · rw [if_neg h1] at h
    by_cases h2 : optIsOffMatch (pyStrip raw.data)
    · rw [if_pos h2] at h
      by_cases h3 : String.mk ((((pyStrip raw.data).drop 2).dropWhile
          (fun c => c ≠ ' ')).drop 1) ≠ "is not set"
      · rw [if_pos h3] at h
        exact Except.noConfusion h
      · rw [if_neg h3] at h
        by_cases h4 : (alookup acc (String.mk (((pyStrip raw.data).drop 2).takeWhile
            (fun c => c ≠ ' ')))).isSome
        · rw [if_pos h4] at h
          exact Except.noConfusion h
        · rw [if_neg h4, Except.ok.injEq] at h
          exact ⟨_, h.symm⟩
    · rw [if_neg h2, Except.ok.injEq] at h
      exact ⟨[], by rw [← h, List.append_nil]⟩

theorem parseKconfigLines_ext (ls : List String) :
    ∀ (acc acc' : List (String × String)),
      parseKconfigLines acc ls = .ok acc' → ∃ ext, acc' = acc ++ ext := by
  induction ls with
  | nil =>
    intro acc acc' h
    rw [show parseKconfigLines acc ([] : List String) = Except.ok acc from rfl,
      Except.ok.injEq] at h
    exact ⟨[], by rw [← h, List.append_nil]⟩
  | cons l ls ih =>
    intro acc acc' h
    rw [parseKconfigLines_cons] at h
    cases hl : parseKconfigLine acc l with
    | error m => rw [hl] at h; exact Except.noConfusion h
    | ok a =>
      rw [hl] at h
      obtain ⟨ext1, rfl⟩ := parseKconfigLine_ext acc l a hl
      obtain ⟨ext2, rfl⟩ := ih (acc ++ ext1) acc' h
      exact ⟨ext1 ++ ext2, by rw [List.append_assoc]⟩

theorem alookup_append_isSome (acc ext : List (String × String)) (k : String)
    (h : (alookup acc k).isSome = true) :
    (alookup (acc ++ ext) k).isSome = true := by
  induction acc with
  | nil => simp [alookup] at h
  | cons p rest ih =>
    obtain ⟨k0, v0⟩ := p
    rw [List.cons_append]
    by_cases hk : k0 = k
    · simp [alookup, hk]
    · simp only [alookup, if_neg hk] at h ⊢
      exact ih h

theorem alookup_append_of_none (acc l2 : List (String × String)) (k : String)
    (h : alookup acc k = none) :
    alookup (acc ++ l2) k = alookup l2 k := by
  induction acc with
  | nil => rfl
  | cons p rest ih =>
    obtain ⟨k0, v0⟩ := p
    rw [List.cons_append]
    by_cases hk : k0 = k
    · simp [alookup, hk] at h
    · simp only [alookup, if_neg hk] at h ⊢
      exact ih h

theorem parseKconfigLine_inserts (acc : List (String × String)) (raw : String)
    (k : String) (acc' : List (String × String))
    (hn : matchedName raw = some k) (h : parseKconfigLine acc raw = .ok acc') :
    (alookup acc' k).isSome = true := by
  simp only [parseKconfigLine] at h
  simp only [matchedName] at hn
  by_cases h1 : optIsOnMatch (pyStrip raw.data)
  · rw [if_pos h1, Option.some_inj] at hn
    rw [if_pos h1] at h
    by_cases h2 : String.mk (((pyStrip raw.data).dropWhile (fun c => c ≠ '=')).drop 1)
        = "is not set"
    · rw [if_pos h2] at h
      exact Except.noConfusion h
    · rw [if_neg h2] at h
      by_cases h3 : (alookup acc (String.mk ((pyStrip raw.data).takeWhile
          (fun c => c ≠ '=')))).isSome
      · rw [if_pos h3] at h
        exact Except.noConfusion h
      · rw [if_neg h3, Except.ok.injEq] at h
        subst h
        rw [← hn]
        rw [alookup_append_of_none acc _ _
          (by cases hll : alookup acc (String.mk ((pyStrip raw.data).takeWhile
                (fun c => c ≠ '='))) with
              | none => rfl
              | some w => rw [hll] at h3; exact absurd rfl h3)]
        rw [alookup, if_pos rfl]
        rfl
  · rw [if_neg h1] at h hn
    by_cases h2 : optIsOffMatch (pyStrip raw.data)
    · rw [if_pos h2, Option.some_inj] at hn
      rw [if_pos h2] at h
      by_cases h3 : String.mk ((((pyStrip raw.data).drop 2).dropWhile
          (fun c => c ≠ ' ')).drop 1) ≠ "is not set"
      · rw [if_pos h3] at h
        exact Except.noConfusion h
      · rw [if_neg h3] at h
        by_cases h4 : (alookup acc (String.mk (((pyStrip raw.data).drop 2).takeWhile
            (fun c => c ≠ ' ')))).isSome
        · rw [if_pos h4] at h
          exact Except.noConfusion h
        · rw [if_neg h4, Except.ok.injEq] at h
          subst h
          rw [← hn]
          rw [alookup_append_of_none acc _ _
            (by cases hll : alookup acc (String.mk (((pyStrip raw.data).drop 2).takeWhile
                  (fun c => c ≠ ' '))) with
                | none => rfl
                | some w => rw [hll] at h4; exact absurd rfl h4)]
          rw [alookup, if_pos rfl]
          rfl
    · rw [if_neg h2] at hn
      exact Option.noConfusion hn

theorem parseKconfigLine_blocked (acc : List (String × String)) (raw : String)
    (k : String)
    (hn : matchedName raw = some k) (hk : (alookup acc k).isSome = true) :
    ∃ m, parseKconfigLine acc raw = .error m := by
  simp only [parseKconfigLine]
  simp only [matchedName] at hn
  by_cases h1 : optIsOnMatch (pyStrip raw.data)
  · rw [if_pos h1, Option.some_inj] at hn
    rw [if_pos h1]
    by_cases h2 : String.mk (((pyStrip raw.data).dropWhile (fun c => c ≠ '=')).drop 1)
        = "is not set"
    · exact ⟨_, by rw [if_pos h2]⟩
    · rw [if_neg h2, hn, if_pos hk]
      exact ⟨_, rfl⟩
  · rw [if_neg h1] at hn ⊢
    by_cases h2 : optIsOffMatch (pyStrip raw.data)
    · rw [if_pos h2, Option.some_inj] at hn
      rw [if_pos h2]
      by_cases h3 : String.mk ((((pyStrip raw.data).drop 2).dropWhile
          (fun c => c ≠ ' ')).drop 1) ≠ "is not set"
      · exact ⟨_, by rw [if_pos h3]⟩
      · rw [if_neg h3, hn, if_pos hk]
        exact ⟨_, rfl⟩
    · rw [if_neg h2] at hn
      exact Option.noConfusion hn

theorem kconfig_duplicates_never_ok (pre mid post : List String) (l1 l2 : String)
    (k : String) (acc : List (String × String))
    (h1 : matchedName l1 = some k) (h2 : matchedName l2 = some k) :
    ∃ m, parseKconfigLines acc (pre ++ l1 :: (mid ++ l2 :: post)) = .error m := by
  cases hp : parseKconfigLines acc pre with
  | error m => exact ⟨m, by rw [parseKconfigLines_append, hp]⟩
  | ok acc1 =>
    cases hl1 : parseKconfigLine acc1 l1 with
    | error m =>
      refine ⟨m, ?_⟩
      rw [parseKconfigLines_append, hp]
      show parseKconfigLines acc1 (l1 :: (mid ++ l2 :: post)) = .error m
      rw [parseKconfigLines_cons, hl1]
    | ok acc2 =>
      have hk2 := parseKconfigLine_inserts acc1 l1 k acc2 h1 hl1
      cases hm : parseKconfigLines acc2 mid with
      | error m =>
        refine ⟨m, ?_⟩
        rw [parseKconfigLines_append, hp]
        show parseKconfigLines acc1 (l1 :: (mid ++ l2 :: post)) = .error m
        rw [parseKconfigLines_cons, hl1]
        show parseKconfigLines acc2 (mid ++ l2 :: post) = .error m
        rw [parseKconfigLines_append, hm]
      | ok acc3 =>
        obtain ⟨ext, rfl⟩ := parseKconfigLines_ext mid acc2 acc3 hm
        obtain ⟨m, hm2⟩ := parseKconfigLine_blocked (acc2 ++ ext) l2 k h2
          (alookup_append_isSome acc2 ext k hk2)
        refine ⟨m, ?_⟩
        rw [parseKconfigLines_append, hp]
        show parseKconfigLines acc1 (l1 :: (mid ++ l2 :: post)) = .error m
        rw [parseKconfigLines_cons, hl1]
        show parseKconfigLines acc2 (mid ++ l2 :: post) = .error m
        rw [parseKconfigLines_append, hm]
        show parseKconfigLines (acc2 ++ ext) (l2 :: post) = .error m
        rw [parseKconfigLines_cons, hm2]

/-- C5 (amended): one pass of the kconfig parser: a well-formed enabled line
CONFIG_nm=value adds the entry (CONFIG_nm, value); a well-formed disabled
line adds the entry (CONFIG_nm, "is not set") — the literal sentinel string,
the option being present in the map, not absent; lines matching neither
pattern are ignored; an enabled line whose value is the literal "is not set"
is a fatal error; an enabled line whose name is already in the map is a
fatal error; and any input whose lines bind the same name twice makes the
whole parse fatal, so a map is never returned. -/
theorem kconfig_parser_spec :
    (∀ (acc : List (String × String)) (raw : String) (nm v : List Char),
      pyStrip raw.data = "CONFIG_".data ++ (nm ++ '=' :: v) →
      (∀ c ∈ nm, isNameChar c = true) → String.mk v ≠ "is not set" →
      alookup acc (String.mk ("CONFIG_".data ++ nm)) = none →
      parseKconfigLine acc raw =
        .ok (acc ++ [(String.mk ("CONFIG_".data ++ nm), String.mk v)])) ∧
    (∀ (acc : List (String × String)) (raw : String) (nm : List Char),
      pyStrip raw.data = "# CONFIG_".data ++ (nm ++ " is not set".data) →
      (∀ c ∈ nm, isNameChar c = true) →
      alookup acc (String.mk ("CONFIG_".data ++ nm)) = none →
      parseKconfigLine acc raw =
        .ok (acc ++ [(String.mk ("CONFIG_".data ++ nm), "is not set")])) ∧
    (∀ (acc : List (String × String)) (raw : String),
      optIsOnMatch (pyStrip raw.data) = false →
      optIsOffMatch (pyStrip raw.data) = false →
      parseKconfigLine acc raw = .ok acc) ∧
    (∀ (acc : List (String × String)) (raw : String) (nm : List Char),
      pyStrip raw.data = "CONFIG_".data ++ (nm ++ '=' :: "is not set".data) →
      (∀ c ∈ nm, isNameChar c = true) →
      ∃ m, parseKconfigLine acc raw = .error m) ∧
    (∀ (acc : List (String × String)) (raw : String) (nm v : List Char),
      pyStrip raw.data = "CONFIG_".data ++ (nm ++ '=' :: v) →
      (∀ c ∈ nm, isNameChar c = true) → String.mk v ≠ "is not set" →
      (alookup acc (String.mk ("CONFIG_".data ++ nm))).isSome = true →
      ∃ m, parseKconfigLine acc raw = .error m) ∧
    (∀ (pre mid post : List String) (l1 l2 : String) (k : String)
        (acc : List (String × String)),
      matchedName l1 = some k → matchedName l2 = some k →
      ∃ m, parseKconfigLines acc (pre ++ l1 :: (mid ++ l2 :: post)) = .error m) :=
  ⟨kconfig_enabled_line, kconfig_disabled_line, kconfig_other_line,
   kconfig_enabled_isnotset, kconfig_duplicate_enabled, kconfig_duplicates_never_ok⟩

/-- Witness for C5 (amended): the single enabled line CONFIG_FOO=y parses to
the entry (CONFIG_FOO, y). -/
theorem kconfig_parser_spec_witness :
    parseKconfigLine [] "CONFIG_FOO=y" = .ok [("CONFIG_FOO", "y")] := by
  have h := kconfig_parser_spec.1 [] "CONFIG_FOO=y" "FOO".data "y".data
    (by decide) (by decide) (by decide) (by decide)
  exact h

/-- Counterexample for C5 as stated: a disabled line stores the literal value
string "is not set" under its option name; the option is present in the map
(its lookup is not the absence sentinel), and a kconfig check for that option
is populated with the present state "is not set", not with the absent
state. -/
theorem kconfig_disabled_absent_cex :
    parseKconfigLines [] ["# CONFIG_FOO is not set"] = .ok [("CONFIG_FOO", "is not set")] ∧
    alookup [("CONFIG_FOO", "is not set")] "CONFIG_FOO" ≠ none ∧
    populateSimpleOptWithData (.simple .kconfig "CONFIG_FOO" (some "is not set") none)
        (.kconfig [("CONFIG_FOO", "is not set")])
      = .simple .kconfig "CONFIG_FOO" (some "is not set") (some "is not set") :=
  ⟨by decide, by decide, by decide⟩

/-! Claims and lemmas: C9 -/

mutual
theorem popComplex_comm (c : Check) (d1 d2 : PopData)
    (h : PopData.kindStr d1 ≠ PopData.kindStr d2) :
    populateOptComplex (populateOptComplex c d1) d2 =
      populateOptComplex (populateOptComplex c d2) d1 := by
  cases c with
  | simple k n e st => rfl
  | version ve v => rfl
  | orC cs =>
    show Check.orC (populateChildrenWithData (populateChildrenWithData cs d1) d2)
      = Check.orC (populateChildrenWithData (populateChildrenWithData cs d2) d1)
    rw [popChildren_comm cs d1 d2 h]
  | andC cs =>
    show Check.andC (populateChildrenWithData (populateChildrenWithData cs d1) d2)
      = Check.andC (populateChildrenWithData (populateChildrenWithData cs d2) d1)
    rw [popChildren_comm cs d1 d2 h]

theorem popChildren_comm (cs : CheckList) (d1 d2 : PopData)
    (h : PopData.kindStr d1 ≠ PopData.kindStr d2) :
    populateChildrenWithData (populateChildrenWithData cs d1) d2 =
      populateChildrenWithData (populateChildrenWithData cs d2) d1 := by
  cases cs with
  | nil => rfl
  | cons o rest =>
    have hrest := popChildren_comm rest d1 d2 h
    cases o with
    | orC cs2 =>
      show CheckList.cons (populateOptComplex (populateOptComplex (.orC cs2) d1) d2)
          (populateChildrenWithData (populateChildrenWithData rest d1) d2)
        = CheckList.cons (populateOptComplex (populateOptComplex (.orC cs2) d2) d1)
          (populateChildrenWithData (populateChildrenWithData rest d2) d1)
      rw [popComplex_comm (Check.orC cs2) d1 d2 h, hrest]
    | andC cs2 =>
      show CheckList.cons (populateOptComplex (populateOptComplex (.andC cs2) d1) d2)
          (populateChildrenWithData (populateChildrenWithData rest d1) d2)
        = CheckList.cons (populateOptComplex (populateOptComplex (.andC cs2) d2) d1)
          (populateChildrenWithData (populateChildrenWithData rest d2) d1)
      rw [popComplex_comm (Check.andC cs2) d1 d2 h, hrest]
    | simple k n e st =>
      cases k <;> cases d1 <;> cases d2 <;>
        first
          | exact absurd rfl h
          | exact congrArg (CheckList.cons _) hrest
    | version ve v =>
      cases d1 <;> cases d2 <;>
        first
          | exact absurd rfl h
          | exact congrArg (CheckList.cons _) hrest
end

mutual
theorem popComplex_idem (c : Check) (d : PopData) :
    populateOptComplex (populateOptComplex c d) d = populateOptComplex c d := by
  cases c with
  | simple k n e st => rfl
  | version ve v => rfl
  | orC cs =>
    show Check.orC (populateChildrenWithData (populateChildrenWithData cs d) d)
      = Check.orC (populateChildrenWithData cs d)
    rw [popChildren_idem cs d]
  | andC cs =>
    show Check.andC (populateChildrenWithData (populateChildrenWithData cs d) d)
      = Check.andC (populateChildrenWithData cs d)
    rw [popChildren_idem cs d]

theorem popChildren_idem (cs : CheckList) (d : PopData) :
    populateChildrenWithData (populateChildrenWithData cs d) d =
      populateChildrenWithData cs d := by
  cases cs with
  | nil => rfl
  | cons o rest =>
    have hrest := popChildren_idem rest d
    cases o with
    | orC cs2 =>
      show CheckList.cons (populateOptComplex (populateOptComplex (.orC cs2) d) d)
          (populateChildrenWithData (populateChildrenWithData rest d) d)
        = CheckList.cons (populateOptComplex (.orC cs2) d) (populateChildrenWithData rest d)
      rw [popComplex_idem (Check.orC cs2) d, hrest]
    | andC cs2 =>
      show CheckList.cons (populateOptComplex (populateOptComplex (.andC cs2) d) d)
          (populateChildrenWithData (populateChildrenWithData rest d) d)
        = CheckList.cons (populateOptComplex (.andC cs2) d) (populateChildrenWithData rest d)
      rw [popComplex_idem (Check.andC cs2) d, hrest]
    | simple k n e st =>
      cases k <;> cases d <;> exact congrArg (CheckList.cons _) hrest
    | version ve v =>
      cases d <;> exact congrArg (CheckList.cons _) hrest
end

theorem popOpt_error_indep (c : Check) (d1 d2 : PopData) (m : String)
    (h : populateOptWithData c d1 = .error m) :
    populateOptWithData c d2 = .error m := by
  cases c with
  | simple k n e st => exact Except.noConfusion h
  | orC cs => exact Except.noConfusion h
  | andC cs => exact Except.noConfusion h
  | version ve v =>
    rw [show populateOptWithData (Check.version ve v) d1
        = .error "AssertionError: bad type version for a simple check" from rfl] at h
    rw [Except.error.injEq] at h
    rw [← h]
    rfl

theorem popOpt_ok_other (c : Check) (d1 d2 : PopData) (c1 : Check)
    (h : populateOptWithData c d1 = .ok c1) :
    ∃ c2, populateOptWithData c d2 = .ok c2 := by
  cases c with
  | simple k n e st => exact ⟨_, rfl⟩
  | orC cs => exact ⟨_, rfl⟩
  | andC cs => exact ⟨_, rfl⟩
  | version ve v => exact Except.noConfusion h

theorem popOpt_ok_of_ok (c : Check) (d : PopData) (c1 : Check)
    (h : populateOptWithData c d = .ok c1) (d2 : PopData) :
    ∃ c2, populateOptWithData c1 d2 = .ok c2 := by
  cases c with
  | simple k n e st =>
    rw [show populateOptWithData (Check.simple k n e st) d
        = .ok (populateSimpleOptWithData (Check.simple k n e st) d) from rfl,
      Except.ok.injEq] at h
    subst h
    cases k <;> cases d <;> exact ⟨_, rfl⟩
  | orC cs =>
    rw [show populateOptWithData (Check.orC cs) d
        = .ok (populateOptComplex (Check.orC cs) d) from rfl, Except.ok.injEq] at h
    subst h
    exact ⟨_, rfl⟩
  | andC cs =>
    rw [show populateOptWithData (Check.andC cs) d
        = .ok (populateOptComplex (Check.andC cs) d) from rfl, Except.ok.injEq] at h
    subst h
    exact ⟨_, rfl⟩
  | version ve v => exact Except.noConfusion h

theorem popOpt_comm (c : Check) (d1 d2 : PopData)
    (h : PopData.kindStr d1 ≠ PopData.kindStr d2) :
    (populateOptWithData c d1 >>= fun x => populateOptWithData x d2) =
      (populateOptWithData c d2 >>= fun x => populateOptWithData x d1) := by
  cases c with
  | simple k n e st =>
    cases k <;> cases d1 <;> cases d2 <;> first | exact absurd rfl h | rfl
  | version ve v => rfl
  | orC cs =>
    show (populateOptWithData (populateOptComplex (Check.orC cs) d1) d2)
      = (populateOptWithData (populateOptComplex (Check.orC cs) d2) d1)
    show Except.ok (populateOptComplex (populateOptComplex (Check.orC cs) d1) d2)
      = Except.ok (populateOptComplex (populateOptComplex (Check.orC cs) d2) d1)
    rw [popComplex_comm (Check.orC cs) d1 d2 h]
  | andC cs =>
    show (populateOptWithData (populateOptComplex (Check.andC cs) d1) d2)
      = (populateOptWithData (populateOptComplex (Check.andC cs) d2) d1)
    show Except.ok (populateOptComplex (populateOptComplex (Check.andC cs) d1) d2)
      = Except.ok (populateOptComplex (populateOptComplex (Check.andC cs) d2) d1)
    rw [popComplex_comm (Check.andC cs) d1 d2 h]

theorem popOpt_idem (c : Check) (d : PopData) :
    (populateOptWithData c d >>= fun x => populateOptWithData x d) =
      populateOptWithData c d := by
  cases c with
  | simple k n e st => cases k <;> cases d <;> rfl
  | version ve v => rfl
  | orC cs =>
    show Except.ok (populateOptComplex (populateOptComplex (Check.orC cs) d) d)
      = Except.ok (populateOptComplex (Check.orC cs) d)
    rw [popComplex_idem (Check.orC cs) d]
  | andC cs =>
    show Except.ok (populateOptComplex (populateOptComplex (Check.andC cs) d) d)
      = Except.ok (populateOptComplex (Check.andC cs) d)
    rw [popComplex_idem (Check.andC cs) d]

theorem populateWithData_cons (c : Check) (rest : List Check) (d : PopData) :
    populateWithData (c :: rest) d =
      match populateOptWithData c d with
      | .error m => .error m
      | .ok c2 =>
        match populateWithData rest d with
        | .error m => .error m
        | .ok r2 => .ok (c2 :: r2) := rfl

theorem popList_comm (l : List Check) (d1 d2 : PopData)
    (h : PopData.kindStr d1 ≠ PopData.kindStr d2) :
    (populateWithData l d1 >>= fun x => populateWithData x d2) =
      (populateWithData l d2 >>= fun x => populateWithData x d1) := by
  induction l with
  | nil => rfl
  | cons c rest ih =>
    rw [populateWithData_cons c rest d1, populateWithData_cons c rest d2]
    cases hc1 : populateOptWithData c d1 with
    | error m =>
      rw [popOpt_error_indep c d1 d2 m hc1]
      rfl
    | ok c1 =>
      obtain ⟨c2, hc2⟩ := popOpt_ok_other c d1 d2 c1 hc1
      rw [hc2]
      obtain ⟨c12, hc12⟩ := popOpt_ok_of_ok c d1 c1 hc1 d2
      have hc21 : populateOptWithData c2 d1 = .ok c12 := by
        have hb := popOpt_comm c d1 d2 h
        rw [hc1, hc2] at hb
        have hb2 : populateOptWithData c1 d2 = populateOptWithData c2 d1 := hb
        rw [← hb2]
        exact hc12
      cases hr1 : populateWithData rest d1 with
      | error m =>
        cases hr2 : populateWithData rest d2 with
        | error m2 =>
          have hih := ih
          rw [hr1, hr2] at hih
          have hmm : m = m2 := by
            have hee : (Except.error m : Except String (List Check)) = Except.error m2 := hih
            exact (Except.error.injEq _ _).mp hee
          rw [hmm]
          rfl
        | ok r2 =>
          have hih := ih
          rw [hr1, hr2] at hih
          have hr2d1 : populateWithData r2 d1 = .error m := by
            have hee : (Except.error m : Except String (List Check))
                = populateWithData r2 d1 := hih
            exact hee.symm
          show Except.error m = populateWithData (c2 :: r2) d1
          rw [populateWithData_cons c2 r2 d1, hc21, hr2d1]
      | ok r1 =>
        cases hr2 : populateWithData rest d2 with
        | error m2 =>
          have hih := ih
          rw [hr1, hr2] at hih
          have hr1d2 : populateWithData r1 d2 = .error m2 := hih
          show populateWithData (c1 :: r1) d2 = Except.error m2
          rw [populateWithData_cons c1 r1 d2, hc12, hr1d2]
        | ok r2 =>
          have hih := ih
          rw [hr1, hr2] at hih
          have hE : populateWithData r1 d2 = populateWithData r2 d1 := hih
          show populateWithData (c1 :: r1) d2 = populateWithData (c2 :: r2) d1
          rw [populateWithData_cons c1 r1 d2, populateWithData_cons c2 r2 d1,
            hc12, hc21, hE]

theorem popList_idem (l : List Check) (d : PopData) :
    (populateWithData l d >>= fun x => populateWithData x d) =
      populateWithData l d := by
  induction l with
  | nil => rfl
  | cons c rest ih =>
    rw [populateWithData_cons c rest d]
    cases hc : populateOptWithData c d with
    | error m => rfl
    | ok c1 =>
      have hc1 : populateOptWithData c1 d = .ok c1 := by
        have hb := popOpt_idem c d
        rw [hc] at hb
        exact hb
      cases hr : populateWithData rest d with
      | error m => rfl
      | ok r1 =>
        have hr1 : populateWithData r1 d = .ok r1 := by
          have hb := ih
          rw [hr] at hb
          exact hb
        show populateWithData (c1 :: r1) d = Except.ok (c1 :: r1)
        rw [populateWithData_cons c1 r1 d, hc1, hr1]

/-- C9: a population pass leaves every non-matching simple check untouched;
a matching kconfig/cmdline check has exactly its state field set from the
map, a matching version check exactly its version field; and at checklist
level population passes of different data kinds commute, while repeating a
pass with the same data is the same as running it once. -/
theorem populate_kind_passes :
    (∀ (c : Check) (d : PopData), typeStr c ≠ "complex" →
        typeStr c ≠ PopData.kindStr d → populateSimpleOptWithData c d = c) ∧
    (∀ (n : String) (e st : Option String) (m : List (String × String)),
        populateSimpleOptWithData (.simple .kconfig n e st) (.kconfig m)
          = .simple .kconfig n e (alookup m n) ∧
        populateSimpleOptWithData (.simple .cmdline n e st) (.cmdline m)
          = .simple .cmdline n e (alookup m n)) ∧
    (∀ (ve : Nat × Nat) (v : Option (Nat × Nat)) (nv : Nat × Nat),
        populateSimpleOptWithData (.version ve v) (.version nv)
          = .version ve (some nv)) ∧
    (∀ (l : List Check) (d1 d2 : PopData),
        PopData.kindStr d1 ≠ PopData.kindStr d2 →
        (populateWithData l d1 >>= fun x => populateWithData x d2) =
          (populateWithData l d2 >>= fun x => populateWithData x d1)) ∧
    (∀ (l : List Check) (d : PopData),
        (populateWithData l d >>= fun x => populateWithData x d) =
          populateWithData l d) := by
  refine ⟨?_, fun n e st m => ⟨rfl, rfl⟩, fun ve v nv => rfl, popList_comm, popList_idem⟩
  intro c d h1 h2
  cases c with
  | simple k n e st => cases k <;> cases d <;> first | exact absurd rfl h2 | rfl
  | version ve v => cases d <;> first | exact absurd rfl h2 | rfl
  | orC cs => exact absurd rfl h1
  | andC cs => exact absurd rfl h1

/-- Witness for C9: populating a two-check list first with kconfig data then
with cmdline data gives the same result as the opposite order. -/
theorem populate_kind_passes_witness :
    (populateWithData
        [Check.simple .kconfig "CONFIG_FOO" (some "y") none,
         Check.simple .cmdline "nopti" none none]
        (.kconfig [("CONFIG_FOO", "y")]) >>= fun x =>
      populateWithData x (.cmdline [("nopti", "")])) =
    (populateWithData
        [Check.simple .kconfig "CONFIG_FOO" (some "y") none,
         Check.simple .cmdline "nopti" none none]
        (.cmdline [("nopti", "")]) >>= fun x =>
      populateWithData x (.kconfig [("CONFIG_FOO", "y")])) :=
  populate_kind_passes.2.2.2.1
    [Check.simple .kconfig "CONFIG_FOO" (some "y") none,
     Check.simple .cmdline "nopti" none none]
    (.kconfig [("CONFIG_FOO", "y")]) (.cmdline [("nopti", "")]) (by decide)

/-- Witness for C4: kernel 5.10 satisfies the required bound 5.9 and the
outcome is PASS-class. -/
theorem version_check_lex_witness :
    isPass (versionCheckResult (5, 9) (5, 10)) = true :=
  (version_check_lex (5, 9) (5, 10)).1.mpr (by decide)
